import Mathlib

/-!
Verification of the dynamic remote-IP matcher and the Cloudflare IP-range
source (Go package `plugins`).  The Go code is shallowly embedded: pure
functions become Lean functions over `List Char` / `String`, machine words
become `Nat` (byte values are kept in range by construction of the parsers),
fallible code returns `Except String _`.  Network I/O and logging are
external effects: a fetch outcome is passed in as an `Except String String`
(transport error or response body), and log calls are not modelled.
-/

set_option maxRecDepth 4096

namespace CaddyCF

/-! ## Data model: `netip.Addr` and `netip.Prefix`

`netip.Addr` is an IPv4 or IPv6 address.  The value is the bytes of the address
read big-endian as a natural number (`< 2^32` for v4, `< 2^128` for v6 as
produced by the parsers).  Zone identifiers never survive the pipeline: the
matcher cuts the string at the first `%` before parsing, and `ParsePrefix`
rejects zoned addresses, so `Addr` carries no zone; the parsers instead
return the zone text separately, mirroring `Addr.WithZone`. -/

inductive Addr where
  | v4 (val : Nat)
  | v6 (val : Nat)
deriving DecidableEq, Repr

/-- Model of `Addr.BitLen`: 32 for IPv4, 128 for IPv6 (4-in-6 addresses are `v6`). -/
def Addr.bitLen : Addr → Nat
  | .v4 _ => 32
  | .v6 _ => 128

def Addr.value : Addr → Nat
  | .v4 v => v
  | .v6 v => v

/-- Model of `Addr.Is4`. -/
def Addr.isV4 : Addr → Bool
  | .v4 _ => true
  | .v6 _ => false

/-- Model of `netip.Prefix`: an address plus a prefix length in bits.  Host bits are
not zeroed at parse time (the Go `ParsePrefix` does not mask). -/
structure Prefix where
  addr : Addr
  bits : Nat
deriving DecidableEq, Repr

/-- Model of `netip.Prefix.Contains`.  Go compares the top `p.bits` bits of the two addresses
(xor-and-mask); for natural-number values this is equality of the values
shifted right by `width - p.bits`.  The `p.IsValid()` guard becomes the
`bits ≤ width` test (an `int16` bit count out of range is invalid); the
zero-`Addr` and zone guards have no counterpart because the model has no
invalid or zoned addresses. -/
def Prefix.Contains (p : Prefix) (ip : Addr) : Bool :=
  if p.bits > p.addr.bitLen then false
  else if ip.bitLen != p.addr.bitLen then false
  else ip.value >>> (p.addr.bitLen - p.bits) == p.addr.value >>> (p.addr.bitLen - p.bits)

/-- The network value of `a` masked to `bits` leading bits (low bits
cleared), the "masked-to-length value" of the spec. -/
def networkValue (a : Addr) (bits : Nat) : Nat :=
  (a.value >>> (a.bitLen - bits)) <<< (a.bitLen - bits)

/-! ## List-of-characters helpers (Go `bytealg` / `strings`) -/

/-- Model of `bytealg.IndexByteString`, as an index into the character list. -/
def indexOfCharAux : List Char → Char → Nat → Option Nat
  | [], _, _ => none
  | c :: rest, t, i => if c = t then some i else indexOfCharAux rest t (i + 1)

def indexOfChar (l : List Char) (t : Char) : Option Nat :=
  indexOfCharAux l t 0

/-- Index of the last occurrence of `t` (Go `last` / `LastIndexByteString`). -/
def lastIndexOfAux : List Char → Char → Nat → Option Nat → Option Nat
  | [], _, _, best => best
  | c :: rest, t, i, best =>
      lastIndexOfAux rest t (i + 1) (if c = t then some i else best)

def lastIndexOfChar (l : List Char) (t : Char) : Option Nat :=
  lastIndexOfAux l t 0 none

def containsChar (l : List Char) (t : Char) : Bool :=
  l.any fun c => c = t

/-- Model of `strings.Cut(s, "%")`, keeping only the part before the first `%`
(the code discards the rest). -/
def cutBeforePercent (l : List Char) : List Char :=
  l.takeWhile fun c => c ≠ '%'

/-! ## `netip` address parsing -/

/-- Byte list to big-endian natural number (`AddrFrom4` / `AddrFrom16`). -/
def bytesToNat (l : List Nat) : Nat :=
  l.foldl (fun acc b => acc * 256 + b) 0

/-- Go `netip.parseIPv4Fields`: parses a dotted decimal quad, rejecting
empty fields, leading zeros, values above 255 and stray characters.
`val`/`digLen` describe the field being scanned, `pos` counts completed
fields, `fields` holds their byte values. -/
def ipv4FieldsAux : List Char → Nat → Nat → Nat → List Nat → Except String (List Nat)
  | [], val, _, pos, fields =>
      if pos < 3 then .error "IPv4 address too short"
      else .ok (fields ++ [val])
  | c :: rest, val, digLen, pos, fields =>
      if '0' ≤ c ∧ c ≤ '9' then
        if digLen = 1 ∧ val = 0 then .error "IPv4 field has octet with leading zero"
        else
          let val := val * 10 + (c.toNat - '0'.toNat)
          if val > 255 then .error "IPv4 field has value >255"
          else ipv4FieldsAux rest val (digLen + 1) pos fields
      else if c = '.' then
        -- ".1.2.3", "1.2.3." and "1..2.3" are invalid.
        if digLen = 0 ∨ rest = [] then .error "IPv4 field must have at least one digit"
        else if pos = 3 then .error "IPv4 address too long"
        else ipv4FieldsAux rest 0 0 (pos + 1) (fields ++ [val])
      else .error "unexpected character"

def ipv4Fields (s : List Char) : Except String (List Nat) :=
  ipv4FieldsAux s 0 0 0 []

/-- Go `netip.parseIPv4`. -/
def parseIPv4Core (s : List Char) : Except String (Addr × String) :=
  match ipv4Fields s with
  | .error e => .error e
  | .ok fields => .ok (Addr.v4 (bytesToNat fields), "")

def hexVal? (c : Char) : Option Nat :=
  if '0' ≤ c ∧ c ≤ '9' then some (c.toNat - '0'.toNat)
  else if 'a' ≤ c ∧ c ≤ 'f' then some (c.toNat - 'a'.toNat + 10)
  else if 'A' ≤ c ∧ c ≤ 'F' then some (c.toNat - 'A'.toNat + 10)
  else none

/-- The inlined hex-group scanner of Go `netip.parseIPv6`: consumes leading
hex digits, accumulating their value; at most 4 digits per group.  Returns
the accumulator, the digit count and the unconsumed suffix. -/
def scanHexGroup : List Char → Nat → Nat → Except String (Nat × Nat × List Char)
  | [], acc, off => .ok (acc, off, [])
  | c :: rest, acc, off =>
      match hexVal? c with
      | none => .ok (acc, off, c :: rest)
      | some v =>
          if off > 3 then .error "each group must have 4 or less digits"
          else
            let acc := acc * 16 + v
            if acc > 65535 then .error "IPv6 field has value >=2^16"
            else scanHexGroup rest acc (off + 1)

/-- The main group loop of Go `netip.parseIPv6` (`for i < 16`).  `ip` holds
the bytes written so far (so `ip.length` is the Go loop variable `i`), `ell` the byte
position of a `::` if one was seen.  Each iteration either consumes a hex
group and a following separator or terminates, so at most 8 iterations run
before `ip.length` reaches 16; `fuel` (called with 16) therefore never
reaches 0 and only makes the recursion structural.  Returns the bytes, the
ellipsis position and the unconsumed suffix. -/
def parseIPv6Loop : Nat → List Char → List Nat → Option Nat → Except String (List Nat × Option Nat × List Char)
  | 0, s, ip, ell => .ok (ip, ell, s)
  | fuel + 1, s, ip, ell =>
      if ip.length ≥ 16 then .ok (ip, ell, s)
      else
        match scanHexGroup s 0 0 with
        | .error e => .error e
        | .ok (acc, off, rest) =>
            if off = 0 then .error "each colon-separated field must have at least one digit"
            else if rest.head? = some '.' then
              -- Trailing embedded IPv4: re-parse the whole remaining
              -- string (including the group just scanned) as dotted quad.
              if ell = none ∧ ip.length ≠ 12 then
                .error "embedded IPv4 address must replace the final 2 fields of the address"
              else if ip.length + 4 > 16 then
                .error "too many hex fields to fit an embedded IPv4 at the end of the address"
              else
                match ipv4Fields s with
                | .error e => .error e
                | .ok fields => .ok (ip ++ fields, ell, [])
            else
              let ip := ip ++ [acc / 256, acc % 256]
              match rest with
              | [] => .ok (ip, ell, [])
              | c :: rest2 =>
                  if c ≠ ':' then .error "unexpected character, want colon"
                  else
                    match rest2 with
                    | [] => .error "colon must be followed by more characters"
                    | ':' :: rest3 =>
                        if ell.isSome then .error "multiple :: in address"
                        else if rest3 = [] then .ok (ip, some ip.length, [])
                        else parseIPv6Loop fuel rest3 ip (some ip.length)
                    | _ => parseIPv6Loop fuel rest2 ip ell

/-- The post-loop processing of Go `netip.parseIPv6`: reject trailing
garbage, expand the `::` (shifting the bytes after it right and
zero-filling), and reject a `::` that expands to nothing. -/
def parseIPv6Finish (ip : List Nat) (ell : Option Nat) (s : List Char) (zone : String) : Except String (Addr × String) :=
  if s ≠ [] then .error "trailing garbage after address"
  else if ip.length < 16 then
    match ell with
    | none => .error "address string too short"
    | some e =>
        .ok (Addr.v6 (bytesToNat (ip.take e ++ List.replicate (16 - ip.length) 0 ++ ip.drop e)), zone)
  else if ell.isSome then .error "the :: must expand to at least one field of zeros"
  else .ok (Addr.v6 (bytesToNat ip), zone)

def parseIPv6Main (s : List Char) (zone : String) : Except String (Addr × String) :=
  match s with
  | ':' :: ':' :: rest =>
      -- Leading ellipsis; "::" alone is the unspecified address.
      if rest = [] then .ok (Addr.v6 0, zone)
      else
        match parseIPv6Loop 16 rest [] (some 0) with
        | .error e => .error e
        | .ok (ip, ell, s2) => parseIPv6Finish ip ell s2 zone
  | _ =>
      match parseIPv6Loop 16 s [] none with
      | .error e => .error e
      | .ok (ip, ell, s2) => parseIPv6Finish ip ell s2 zone

/-- Go `netip.parseIPv6`: split off a zone at the first `%` (an empty zone
is an error), then parse the rest. -/
def parseIPv6Core (s : List Char) : Except String (Addr × String) :=
  match indexOfChar s '%' with
  | some j =>
      let zone := s.drop (j + 1)
      if zone = [] then .error "zone must be a non-empty string"
      else parseIPv6Main (s.take j) (String.mk zone)
  | none => parseIPv6Main s ""

/-- Go `netip.ParseAddr`: dispatch on the first `.`, `:` or `%`. -/
def parseAddrCore (s : List Char) : Except String (Addr × String) :=
  match s.find? (fun c => c = '.' ∨ c = ':' ∨ c = '%') with
  | some '.' => parseIPv4Core s
  | some ':' => parseIPv6Core s
  | some _ => .error "missing IPv6 address"
  | none => .error "unable to parse IP"

def ParseAddr (s : String) : Except String (Addr × String) :=
  parseAddrCore s.toList

/-- Go `strconv.Atoi` restricted to what `ParsePrefix` needs: optional
sign, then decimal digits; anything else is a syntax error.  (`Atoi` also
fails with a range error past 2^63; such values are rejected just after by
the `bits > maxBits` check, so only the error text would differ.) -/
def atoiDigits (l : List Char) : Except String Nat :=
  if l = [] then .error "invalid syntax"
  else if l.all (fun c => '0' ≤ c ∧ c ≤ '9') then
    .ok (l.foldl (fun a c => a * 10 + (c.toNat - '0'.toNat)) 0)
  else .error "invalid syntax"

def atoi (l : List Char) : Except String Int :=
  match l with
  | '+' :: rest => (atoiDigits rest).map fun n => (n : Int)
  | '-' :: rest => (atoiDigits rest).map fun n => -(n : Int)
  | _ => (atoiDigits l).map fun n => (n : Int)

def parsePrefixErr (s msg : String) : String :=
  "netip.ParsePrefix(\"" ++ s ++ "\"): " ++ msg

/-- Go `netip.ParsePrefix`: address before the last `/`, decimal bit count
after it, no zone, bit count within the range of the family.  (`strconv.Quote`
is modelled as plain double-quoting.) -/
def ParsePrefix (s : String) : Except String Prefix :=
  match lastIndexOfChar s.toList '/' with
  | none => .error (parsePrefixErr s "no slash")
  | some i =>
      match parseAddrCore (s.toList.take i) with
      | .error e => .error (parsePrefixErr s e)
      | .ok (ip, zone) =>
          if zone ≠ "" then .error (parsePrefixErr s "IPv6 zones cannot be present in a prefix")
          else
            match atoi (s.toList.drop (i + 1)) with
            | .error _ => .error (parsePrefixErr s ("bad bits after slash: \"" ++ String.mk (s.toList.drop (i + 1)) ++ "\""))
            | .ok bits =>
                let maxBits : Int := if ip.isV4 then 32 else 128
                if bits < 0 ∨ bits > maxBits then .error (parsePrefixErr s "prefix length out of range")
                else .ok ⟨ip, bits.toNat⟩

/-! ## `net.SplitHostPort` and address parsing in the matcher -/

/-- Go `net.SplitHostPort`: the port starts after the last colon; a host in
brackets must end just before it; brackets and extra colons elsewhere are
rejected.  Error strings follow the Go messages (unquoted). -/
def splitHostPortCore (l : List Char) : Except String (List Char × List Char) :=
  match lastIndexOfChar l ':' with
  | none => .error "missing port in address"
  | some i =>
      if l.head? = some '[' then
        match indexOfChar l ']' with
        | none => .error "missing close bracket in address"
        | some e =>
            if e + 1 = l.length then .error "missing port in address"
            else if e + 1 = i then
              if containsChar (l.drop 1) '[' then .error "missing open bracket in address"
              else if containsChar (l.drop (e + 1)) ']' then .error "missing close bracket in address"
              else .ok ((l.drop 1).take (e - 1), l.drop (i + 1))
            else if (l.drop (e + 1)).head? = some ':' then .error "too many colons in address"
            else .error "missing port in address"
      else
        if containsChar (l.take i) ':' then .error "too many colons in address"
        else if containsChar l '[' then .error "missing open bracket in address"
        else if containsChar l ']' then .error "missing close bracket in address"
        else .ok (l.take i, l.drop (i + 1))

def splitHostPort (s : String) : Except String (String × String) :=
  match splitHostPortCore s.toList with
  | .error e => .error e
  | .ok (host, port) => .ok (String.mk host, String.mk port)

/-- The function `parseIPZoneFromString` (matcher source): split off a port if possible,
falling back to the whole string; cut everything from the first `%` on;
parse the rest as an IP literal.  The returned `netip.Addr` can carry no
zone (the `%` was cut), so the model returns the bare address. -/
def parseIPZoneFromString (address : String) : Except String Addr :=
  let ipChars :=
    match splitHostPortCore address.toList with
    | .ok (host, _) => host
    | .error _ => address.toList
  match parseAddrCore (cutBeforePercent ipChars) with
  | .error e => .error e
  | .ok (ip, _) => .ok ip

/-! ## The matcher `MatchDynamicRemoteIP.Match`

The provisioned state of the matcher is its optional range source.  For the
purposes of `Match` a source is what its `GetIPRanges` returns for the
request: a list of prefixes (`CloudflareIPRange.GetIPRanges` ignores the
request and returns the current snapshot). -/

structure MatchDynamicRemoteIP where
  providers : Option (List Prefix)

/-- The matcher method `MatchDynamicRemoteIP.Match`: parse the peer address (logging and
returning `false` on failure), return `false` with no source, otherwise
scan the ranges of the source for one containing the address (`List.any`
short-circuits like the early `return true` of the Go loop). -/
def MatchDynamicRemoteIP.Match (m : MatchDynamicRemoteIP) (remoteAddr : String) : Bool :=
  match parseIPZoneFromString remoteAddr with
  | .error _ => false
  | .ok remoteIP =>
      match m.providers with
      | none => false
      | some cidrs => cidrs.any fun ipRange => ipRange.Contains remoteIP

/-! ## The Cloudflare range source (`cloudflare_source.go`)

HTTP transport is external: the outcome of each endpoint enters the model as an
`Except String String` (transport/timeout error, or the response body).
The concurrency around `s.ranges` (the RW lock) is not modelled; the
snapshot-replacement logic is. -/

structure CloudflareIPRange where
  interval : Int
  timeout : Int
  ranges : List Prefix
deriving DecidableEq, Repr

/-- A freshly loaded module: configured durations (in nanoseconds,
`caddy.Duration` is an `int64`), zero-value (empty) snapshot. -/
def CloudflareIPRange.init (interval timeout : Int) : CloudflareIPRange :=
  ⟨interval, timeout, []⟩

/-- Accessor `GetIPRanges` returns the current snapshot (the request is ignored). -/
def CloudflareIPRange.GetIPRanges (s : CloudflareIPRange) : List Prefix :=
  s.ranges

/-- Model of `bufio.ScanLines`: split on newlines, dropping one trailing `\r` per
line.  (The scanner emits no final empty token for a body ending in `\n`;
the split does, but the fetch loop skips blank lines, so the results
agree.) -/
def dropCR (l : List Char) : List Char :=
  if l.getLast? = some '\r' then l.dropLast else l

def splitOnNL : List Char → List (List Char)
  | [] => [[]]
  | c :: rest =>
      match splitOnNL rest with
      | [] => [[c]]
      | g :: gs => if c = '\n' then [] :: g :: gs else (c :: g) :: gs

def scanLines (body : String) : List String :=
  (splitOnNL body.toList).map fun ln => String.mk (dropCR ln)

/-- The scanner loop of `CloudflareIPRange.fetch`: skip blank lines, parse
each other line as a CIDR, abort on the first failure. -/
def parsePrefixBodyGo : List String → List Prefix → Except String (List Prefix)
  | [], acc => .ok acc
  | ln :: rest, acc =>
      if ln = "" then parsePrefixBodyGo rest acc
      else
        match ParsePrefix ln with
        | .error e => .error e
        | .ok p => parsePrefixBodyGo rest (acc ++ [p])

def parsePrefixBody (body : String) : Except String (List Prefix) :=
  parsePrefixBodyGo (scanLines body) []

/-- Method `CloudflareIPRange.fetch` for one endpoint, with the outcome of the HTTP GET
supplied by the environment: a transport error propagates, a body is parsed
line by line. -/
def CloudflareIPRange.fetch (net : Except String String) : Except String (List Prefix) :=
  match net with
  | .error e => .error e
  | .ok body => parsePrefixBody body

/-- Method `CloudflareIPRange.getPrefixes`: fetch the v4 endpoint then the v6
endpoint; any failure aborts the whole cycle; on success concatenate in
endpoint order. -/
def CloudflareIPRange.getPrefixes (net4 net6 : Except String String) : Except String (List Prefix) :=
  match CloudflareIPRange.fetch net4 with
  | .error e => .error e
  | .ok p4 =>
      match CloudflareIPRange.fetch net6 with
      | .error e => .error e
      | .ok p6 => .ok (p4 ++ p6)

/-- One tick of `refreshLoop`: a failed cycle is logged and skipped
(`continue`), leaving the snapshot untouched; a successful one installs
the new snapshot under the write lock. -/
def CloudflareIPRange.refreshTick (s : CloudflareIPRange) (cycle : Except String (List Prefix)) : CloudflareIPRange :=
  match cycle with
  | .error _ => s
  | .ok newRanges => { s with ranges := newRanges }

/-- Method `Provision` with the outcome of the initial cycle: a failure is logged and
the empty zero-value snapshot kept; a success installs the ranges.  The
returned error is always `none` (`Provision` ends in `return nil`). -/
def CloudflareIPRange.provision (s : CloudflareIPRange) (initial : Except String (List Prefix)) : Option String × CloudflareIPRange :=
  match initial with
  | .error _ => (none, s)
  | .ok initialRanges => (none, { s with ranges := initialRanges })

/-- The interval fallback of the loop `refreshLoop`: exactly-zero means one hour
(3.6e12 ns); any other value, negative included, is used as-is. -/
def CloudflareIPRange.effectiveInterval (interval : Int) : Int :=
  if interval = 0 then 3600000000000 else interval

/-- The timeout fallback of the function `fetch`: exactly-zero means 15 seconds (1.5e10 ns);
any other value, negative included, is used as-is. -/
def CloudflareIPRange.effectiveTimeout (timeout : Int) : Int :=
  if timeout = 0 then 15000000000 else timeout

/-- The non-blank lines of a body, as the fetch loop sees them. -/
def nonBlankLines (body : String) : List String :=
  (scanLines body).filter fun l => l ≠ ""

/-- The example snapshot used by the spec: the single prefix `198.51.100.0/24`. -/
def testSnapshot : List Prefix :=
  match ParsePrefix "198.51.100.0/24" with
  | .ok p => [p]
  | .error _ => []

/-! ## Theorems -/

/-- C8: For every request, if no range source is configured (the provider
reference is absent), `Match` returns `false`. -/
theorem C8_no_source_never_matches :
    ∀ raw : String, (MatchDynamicRemoteIP.mk none).Match raw = false := by
  intro raw
  unfold MatchDynamicRemoteIP.Match
  cases parseIPZoneFromString raw <;> rfl

/-- C2: For every request whose raw peer-address string does not parse (after
host/port split and zone stripping), `Match` returns `false`: the match path
absorbs the parse error instead of raising it (fail-closed).  The log call on
that path is a side effect outside the model. -/
theorem C2_unparseable_address_fails_closed (m : MatchDynamicRemoteIP) (raw e : String)
    (h : parseIPZoneFromString raw = .error e) :
    m.Match raw = false := by
  unfold MatchDynamicRemoteIP.Match
  rw [h]

theorem C2_witness :
    parseIPZoneFromString "not-an-ip" = .error "unable to parse IP"
    ∧ (MatchDynamicRemoteIP.mk (some testSnapshot)).Match "not-an-ip" = false :=
  ⟨rfl, C2_unparseable_address_fails_closed ⟨some testSnapshot⟩ "not-an-ip"
    "unable to parse IP" rfl⟩

/-- C5: Provisioning succeeds (no error) even when the initial fetch cycle
fails; the snapshot then stays empty, `GetIPRanges` returns the empty list,
and `Match` against that source returns `false` for every address. -/
theorem C5_provision_survives_initial_fetch_failure :
    ∀ (interval timeout : Int) (e : String),
      ((CloudflareIPRange.init interval timeout).provision (.error e)).1 = none
      ∧ ((CloudflareIPRange.init interval timeout).provision (.error e)).2.GetIPRanges = []
      ∧ ∀ raw : String,
          (MatchDynamicRemoteIP.mk
            (some ((CloudflareIPRange.init interval timeout).provision (.error e)).2.GetIPRanges)).Match raw = false := by
  intro interval timeout e
  refine ⟨rfl, rfl, fun raw => ?_⟩
  unfold MatchDynamicRemoteIP.Match
  cases parseIPZoneFromString raw <;> rfl

/-- C6 counterexample: the claim says a negative configured interval behaves
as the 1-hour default, but `refreshLoop` replaces only an exactly-zero
interval, so `-1` is used as-is (and is not one hour). -/
theorem C6_counterexample :
    ¬ (CloudflareIPRange.effectiveInterval (-1) = 3600000000000) := by decide

/-- C6 (amended): when the interval or timeout is absent or exactly zero the
defaults of 1 hour and 15 seconds apply; any non-zero value — negative
included — is used as-is, and no upper bound is enforced. -/
theorem C6_defaults_only_for_zero :
    CloudflareIPRange.effectiveInterval 0 = 3600000000000
    ∧ CloudflareIPRange.effectiveTimeout 0 = 15000000000
    ∧ ∀ d : Int, d ≠ 0 →
        CloudflareIPRange.effectiveInterval d = d ∧ CloudflareIPRange.effectiveTimeout d = d := by
  refine ⟨rfl, rfl, fun d hd => ⟨?_, ?_⟩⟩
  · unfold CloudflareIPRange.effectiveInterval
    rw [if_neg hd]
  · unfold CloudflareIPRange.effectiveTimeout
    rw [if_neg hd]

theorem C6_witness :
    (7200000000000 : Int) ≠ 0
    ∧ CloudflareIPRange.effectiveInterval 7200000000000 = 7200000000000
    ∧ CloudflareIPRange.effectiveTimeout 7200000000000 = 7200000000000 :=
  ⟨by decide, (C6_defaults_only_for_zero.2.2 7200000000000 (by decide)).1,
    (C6_defaults_only_for_zero.2.2 7200000000000 (by decide)).2⟩

/-- C3: A fetch cycle is all-or-nothing across its two endpoints: if either
endpoint fetch fails, the cycle yields an error and no prefixes and a refresh
tick leaves the installed snapshot exactly unchanged (in particular when the
v4 endpoint succeeds and the v6 endpoint fails); only a cycle in which both
endpoints succeed replaces the snapshot, with the concatenated prefixes. -/
theorem C3_cycle_all_or_nothing :
    ∀ (s : CloudflareIPRange) (net4 net6 : Except String String),
      (((∃ e, CloudflareIPRange.fetch net4 = .error e)
          ∨ (∃ e, CloudflareIPRange.fetch net6 = .error e)) →
        (∃ e, CloudflareIPRange.getPrefixes net4 net6 = .error e)
          ∧ s.refreshTick (CloudflareIPRange.getPrefixes net4 net6) = s)
      ∧ (∀ p4 p6, CloudflareIPRange.fetch net4 = .ok p4 → CloudflareIPRange.fetch net6 = .ok p6 →
          CloudflareIPRange.getPrefixes net4 net6 = .ok (p4 ++ p6)
            ∧ (s.refreshTick (CloudflareIPRange.getPrefixes net4 net6)).ranges = p4 ++ p6) := by
  intro s net4 net6
  constructor
  · intro hfail
    have herr : ∃ e, CloudflareIPRange.getPrefixes net4 net6 = .error e := by
      unfold CloudflareIPRange.getPrefixes
      rcases hfail with ⟨e, he⟩ | ⟨e, he⟩
      · rw [he]; exact ⟨e, rfl⟩
      · cases h4 : CloudflareIPRange.fetch net4 with
        | error e4 => exact ⟨e4, rfl⟩
        | ok p4 => rw [he]; exact ⟨e, rfl⟩
    obtain ⟨e, he⟩ := herr
    refine ⟨⟨e, he⟩, ?_⟩
    rw [he]
    rfl
  · intro p4 p6 h4 h6
    have hok : CloudflareIPRange.getPrefixes net4 net6 = .ok (p4 ++ p6) := by
      unfold CloudflareIPRange.getPrefixes
      rw [h4, h6]
    refine ⟨hok, ?_⟩
    rw [hok]
    rfl

theorem C3_witness :
    (∃ e, CloudflareIPRange.getPrefixes (.ok "173.245.48.0/20") (.error "connection refused") = .error e)
    ∧ (CloudflareIPRange.mk 0 0 testSnapshot).refreshTick
        (CloudflareIPRange.getPrefixes (.ok "173.245.48.0/20") (.error "connection refused"))
        = CloudflareIPRange.mk 0 0 testSnapshot :=
  (C3_cycle_all_or_nothing ⟨0, 0, testSnapshot⟩ (.ok "173.245.48.0/20") (.error "connection refused")).1
    (Or.inr ⟨"connection refused", rfl⟩)

/-- C9: the containment test used by `Match` holds iff the address lies in
the address family of the prefix and its masked-to-length value equals the
network value of the prefix; in particular a cross-family pair never matches. -/
theorem C9_contains_iff_family_and_network :
    (∀ (p : Prefix) (a : Addr), p.bits ≤ p.addr.bitLen →
      (p.Contains a = true ↔
        (a.isV4 = p.addr.isV4 ∧ networkValue a p.bits = networkValue p.addr p.bits)))
    ∧ (∀ (p : Prefix) (a : Addr), a.isV4 ≠ p.addr.isV4 → p.Contains a = false) := by
  constructor
  · rintro ⟨pa, bits⟩ a hle
    have key : ∀ x y k : Nat, x >>> k = y >>> k ↔ (x >>> k) <<< k = (y >>> k) <<< k := by
      intro x y k
      constructor
      · intro h; rw [h]
      · intro h
        rw [Nat.shiftLeft_eq, Nat.shiftLeft_eq] at h
        exact Nat.eq_of_mul_eq_mul_right (Nat.two_pow_pos k) h
    cases a <;> cases pa <;>
      simp_all [ Prefix.Contains, Addr.bitLen, Addr.isV4, Addr.value, networkValue,
        Nat.not_lt.mpr hle]
  · rintro ⟨pa, bits⟩ a hne
    cases a <;> cases pa <;> simp_all [ Prefix.Contains, Addr.bitLen, Addr.isV4]

theorem C9_witness :
    24 ≤ (Addr.v4 3325256704).bitLen
    ∧ (( Prefix.mk (Addr.v4 3325256704) 24).Contains (Addr.v4 3325256746) = true ↔
        ((Addr.v4 3325256746).isV4 = (Addr.v4 3325256704).isV4
          ∧ networkValue (Addr.v4 3325256746) 24 = networkValue (Addr.v4 3325256704) 24)) :=
  ⟨by decide, C9_contains_iff_family_and_network.1 ⟨Addr.v4 3325256704, 24⟩
    (Addr.v4 3325256746) (by decide)⟩

/-- C1: `Match` against a configured source returns `true` iff some prefix
of the snapshot of the source contains the parsed peer address (a pure
disjunction over the snapshot); with the single-prefix snapshot
`[198.51.100.0/24]` it returns `true` for a peer parsing to `198.51.100.42`
and `false` for one parsing to `198.51.101.1`. -/
theorem C1_match_is_snapshot_disjunction :
    (∀ (snapshot : List Prefix) (raw : String) (ip : Addr),
        parseIPZoneFromString raw = .ok ip →
        ((MatchDynamicRemoteIP.mk (some snapshot)).Match raw = true ↔
          ∃ p ∈ snapshot, p.Contains ip = true))
    ∧ (∀ raw : String, parseIPZoneFromString raw = .ok (Addr.v4 3325256746) →
        (MatchDynamicRemoteIP.mk (some testSnapshot)).Match raw = true)
    ∧ (∀ raw : String, parseIPZoneFromString raw = .ok (Addr.v4 3325256961) →
        (MatchDynamicRemoteIP.mk (some testSnapshot)).Match raw = false) := by
  have main : ∀ (snapshot : List Prefix) (raw : String) (ip : Addr),
      parseIPZoneFromString raw = .ok ip →
      ((MatchDynamicRemoteIP.mk (some snapshot)).Match raw = true ↔
        ∃ p ∈ snapshot, p.Contains ip = true) := by
    intro snapshot raw ip h
    unfold MatchDynamicRemoteIP.Match
    rw [h]
    simp [List.any_eq_true]
  refine ⟨main, fun raw h => ?_, fun raw h => ?_⟩
  · rw [main testSnapshot raw _ h]
    decide
  · have hiff := main testSnapshot raw _ h
    rw [← Bool.not_eq_true ((MatchDynamicRemoteIP.mk (some testSnapshot)).Match raw), hiff]
    decide

theorem C1_witness :
    parseIPZoneFromString "198.51.100.42:12345" = .ok (Addr.v4 3325256746)
    ∧ (MatchDynamicRemoteIP.mk (some testSnapshot)).Match "198.51.100.42:12345" = true :=
  ⟨rfl, C1_match_is_snapshot_disjunction.2.1 "198.51.100.42:12345" rfl⟩

/-- C4: `parseIPZoneFromString` splits off a port when one is present,
strips any zone suffix after `%`, and parses the rest as an IP literal:
`"203.0.113.5:443"` gives `203.0.113.5`, `"[2001:db8::1%eth0]:443"` gives
`2001:db8::1`, `"not-an-ip"` fails; when the host/port split fails (no port
present) the whole string is treated as the host. -/
theorem C4_parse_peer_address :
    parseIPZoneFromString "203.0.113.5:443" = .ok (Addr.v4 (((203 * 256 + 0) * 256 + 113) * 256 + 5))
    ∧ parseIPZoneFromString "[2001:db8::1%eth0]:443"
        = .ok (Addr.v6 (0x2001 * 2 ^ 112 + 0xdb8 * 2 ^ 96 + 1))
    ∧ (∃ e, parseIPZoneFromString "not-an-ip" = .error e)
    ∧ (∀ raw e, splitHostPortCore raw.toList = .error e →
        parseIPZoneFromString raw = (parseAddrCore (cutBeforePercent raw.toList)).map Prod.fst) := by
  refine ⟨rfl, rfl, ⟨"unable to parse IP", rfl⟩, fun raw e h => ?_⟩
  unfold parseIPZoneFromString
  rw [h]
  cases hp : parseAddrCore (cutBeforePercent raw.toList) with
  | error e2 =>
      simp only [String.toList] at hp
      simp [hp, Except.map]
  | ok pair =>
      cases pair
      simp only [String.toList] at hp
      simp [hp, Except.map]

theorem C4_witness :
    splitHostPortCore ("203.0.113.7" : String).toList = .error "missing port in address"
    ∧ parseIPZoneFromString "203.0.113.7"
        = (parseAddrCore (cutBeforePercent ("203.0.113.7" : String).toList)).map Prod.fst :=
  ⟨rfl, C4_parse_peer_address.2.2.2 "203.0.113.7" "missing port in address" rfl⟩

/-- Every `ParsePrefix` error is `parsePrefixErr` applied to the input. -/
theorem parsePrefix_error_shape (l e : String) (h : ParsePrefix l = .error e) :
    ∃ msg, e = parsePrefixErr l msg := by
  unfold ParsePrefix at h
  repeat' split at h
  all_goals try dsimp only at h
  repeat' split at h
  all_goals try exact Except.noConfusion h
  all_goals exact ⟨_, ((Except.error.injEq _ _).mp h).symm⟩

/-- A `ParsePrefix` error message surfaces the offending input verbatim. -/
theorem parsePrefix_error_surfaces (l e : String) (h : ParsePrefix l = .error e) :
    ∃ a b : String, e = a ++ l ++ b := by
  obtain ⟨msg, rfl⟩ := parsePrefix_error_shape l e h
  refine ⟨"netip.ParsePrefix(\"", "\"): " ++ msg, ?_⟩
  unfold parsePrefixErr
  rw [String.append_assoc]

/-- When every non-blank line parses, the fetch loop returns all their
prefixes, in line order, appended to the accumulator. -/
theorem parsePrefixBodyGo_all_ok (ls : List String) :
    ∀ acc : List Prefix,
      (∀ l ∈ ls.filter (fun x => x ≠ ""), ∃ p, ParsePrefix l = .ok p) →
      parsePrefixBodyGo ls acc
        = .ok (acc ++ (ls.filter (fun x => x ≠ "")).filterMap fun l => ( ParsePrefix l).toOption) := by
  induction ls with
  | nil => intro acc _; simp [parsePrefixBodyGo]
  | cons ln rest ih =>
    intro acc h
    by_cases hln : ln = ""
    · subst hln
      have h' : ∀ l ∈ rest.filter (fun x => x ≠ ""), ∃ p, ParsePrefix l = .ok p := by
        intro l hl
        exact h l (by simpa using hl)
      simp only [parsePrefixBodyGo, if_pos rfl]
      rw [ih acc h']
      simp
    · have hmem : ln ∈ (ln :: rest).filter (fun x => x ≠ "") := by simp [hln]
      obtain ⟨p, hp⟩ := h ln hmem
      have h' : ∀ l ∈ rest.filter (fun x => x ≠ ""), ∃ p, ParsePrefix l = .ok p := by
        intro l hl
        refine h l ?_
        simp only [List.mem_filter] at hl ⊢
        exact ⟨List.mem_cons_of_mem _ hl.1, hl.2⟩
      simp only [parsePrefixBodyGo, if_neg hln, hp]
      rw [ih (acc ++ [p]) h']
      simp [List.filter_cons, hln, hp, Except.toOption]

/-- The fetch loop fails with the error of the first unparsable non-blank
line, whatever came before or after it. -/
theorem parsePrefixBodyGo_first_error (ls : List String) :
    ∀ (acc : List Prefix) (pre : List String) (l : String) (post : List String) (e : String),
      ls.filter (fun x => x ≠ "") = pre ++ l :: post →
      (∀ x ∈ pre, ∃ p, ParsePrefix x = .ok p) →
      ParsePrefix l = .error e →
      parsePrefixBodyGo ls acc = .error e := by
  induction ls with
  | nil =>
    intro acc pre l post e hsplit _ _
    simp at hsplit
  | cons ln rest ih =>
    intro acc pre l post e hsplit hpre hl
    by_cases hln : ln = ""
    · subst hln
      simp only [List.filter_cons] at hsplit
      simp only [parsePrefixBodyGo, if_pos rfl]
      exact ih acc pre l post e (by simpa using hsplit) hpre hl
    · have hfc : ((ln :: rest).filter fun x => x ≠ "") = ln :: rest.filter (fun x => x ≠ "") := by
        simp [hln]
      rw [hfc] at hsplit
      cases pre with
      | nil =>
        simp only [List.nil_append, List.cons.injEq] at hsplit
        obtain ⟨hln_l, _⟩ := hsplit
        subst hln_l
        simp only [parsePrefixBodyGo]
        rw [if_neg hln, hl]
      | cons y ys =>
        simp only [List.cons_append, List.cons.injEq] at hsplit
        obtain ⟨hln_y, hrest⟩ := hsplit
        obtain ⟨p, hp⟩ := hpre y (List.mem_cons_self y ys)
        rw [← hln_y] at hp
        simp only [parsePrefixBodyGo]
        rw [if_neg hln, hp]
        exact ih (acc ++ [p]) ys l post e hrest (fun x hx => hpre x (List.mem_cons_of_mem _ hx)) hl

/-- C7: parsing a fetched body splits it on line boundaries, skips blank
lines and parses the rest as CIDR literals: if every non-blank line parses,
the prefixes come back in line order; otherwise the result is the error of
the first unparsable non-blank line (no prefixes for that body), and that
error surfaces the offending line verbatim. -/
theorem C7_body_line_parsing :
    ∀ body : String,
      ((∀ l ∈ nonBlankLines body, ∃ p, ParsePrefix l = .ok p) →
        parsePrefixBody body
          = .ok ((nonBlankLines body).filterMap fun l => ( ParsePrefix l).toOption))
      ∧ (∀ pre l post e, nonBlankLines body = pre ++ l :: post →
          (∀ x ∈ pre, ∃ p, ParsePrefix x = .ok p) →
          ParsePrefix l = .error e →
          parsePrefixBody body = .error e ∧ ∃ a b, e = a ++ l ++ b) := by
  intro body
  constructor
  · intro h
    have hgo := parsePrefixBodyGo_all_ok (scanLines body) [] (by simpa [nonBlankLines] using h)
    simpa [parsePrefixBody, nonBlankLines] using hgo
  · intro pre l post e hsplit hpre hl
    refine ⟨?_, parsePrefix_error_surfaces l e hl⟩
    have hgo := parsePrefixBodyGo_first_error (scanLines body) [] pre l post e
      (by simpa [nonBlankLines] using hsplit) hpre hl
    simpa [parsePrefixBody] using hgo

theorem C7_witness :
    parsePrefixBody "173.245.48.0/20\nnot a cidr"
        = .error "netip.ParsePrefix(\"not a cidr\"): no slash"
    ∧ ∃ a b, ("netip.ParsePrefix(\"not a cidr\"): no slash" : String) = a ++ "not a cidr" ++ b :=
  (C7_body_line_parsing "173.245.48.0/20\nnot a cidr").2 ["173.245.48.0/20"] "not a cidr" []
    "netip.ParsePrefix(\"not a cidr\"): no slash" rfl
    (fun x hx => by
      simp only [List.mem_singleton] at hx
      subst hx
      exact ⟨⟨Addr.v4 2918526976, 20⟩, rfl⟩)
    rfl

theorem lastIndexOfAux_of_not_mem (c : Char) :
    ∀ (l : List Char) (i : Nat) (best : Option Nat), c ∉ l → lastIndexOfAux l c i best = best := by
  intro l
  induction l with
  | nil => intro i best _; rfl
  | cons x xs ih =>
    intro i best hmem
    simp only [List.mem_cons, not_or] at hmem
    simp only [lastIndexOfAux]
    rw [if_neg fun hxc => hmem.1 hxc.symm]
    exact ih (i + 1) best hmem.2

theorem lastIndexOfChar_eq_none (l : List Char) (c : Char) (h : c ∉ l) :
    lastIndexOfChar l c = none :=
  lastIndexOfAux_of_not_mem c l 0 none h

theorem containsChar_eq_true_iff (l : List Char) (t : Char) :
    containsChar l t = true ↔ t ∈ l := by
  unfold containsChar
  rw [List.any_eq_true]
  constructor
  · rintro ⟨x, hxl, hxt⟩
    rw [decide_eq_true_eq] at hxt
    exact hxt ▸ hxl
  · intro htl
    exact ⟨t, htl, by simp⟩

/-- A string with no colon has no port to split off. -/
theorem splitHostPortCore_no_colon (l : List Char) (h : ':' ∉ l) :
    splitHostPortCore l = .error "missing port in address" := by
  unfold splitHostPortCore
  rw [lastIndexOfChar_eq_none l ':' h]

/-- If splitting `hl ++ ":" ++ pl` gives back exactly the host `hl` and the
port `pl`, then `hl` contains no colon (the bracketed-host branch can never
return a host equal to the bracketed original). -/
theorem splitHostPortCore_append_host (hl pl : List Char)
    (hsp : splitHostPortCore (hl ++ ':' :: pl) = .ok (hl, pl)) : ':' ∉ hl := by
  unfold splitHostPortCore at hsp
  cases hidx : lastIndexOfChar (hl ++ ':' :: pl) ':' with
  | none => rw [hidx] at hsp; exact Except.noConfusion hsp
  | some i =>
    rw [hidx] at hsp
    dsimp only at hsp
    by_cases hbr : (hl ++ ':' :: pl).head? = some '['
    · rw [if_pos hbr] at hsp
      obtain ⟨t, rfl⟩ : ∃ t, hl = '[' :: t := by
        cases hl with
        | nil => simp at hbr
        | cons a t =>
          simp only [List.cons_append, List.head?_cons, Option.some.injEq] at hbr
          exact ⟨t, by rw [hbr]⟩
      cases he : indexOfChar (('[' :: t) ++ ':' :: pl) ']' with
      | none => rw [he] at hsp; exact Except.noConfusion hsp
      | some e =>
        rw [he] at hsp
        dsimp only at hsp
        by_cases hlen : e + 1 = (('[' :: t) ++ ':' :: pl).length
        · rw [if_pos hlen] at hsp; exact Except.noConfusion hsp
        · rw [if_neg hlen] at hsp
          by_cases hei : e + 1 = i
          · rw [if_pos hei] at hsp
            split at hsp
            next => exact Except.noConfusion hsp
            next hb1 =>
              split at hsp
              next => exact Except.noConfusion hsp
              next =>
                have hsp1 := (Prod.mk.injEq _ _ _ _).mp ((Except.ok.injEq _ _).mp hsp)
                have hmem0 := List.mem_cons_self '[' t
                rw [← hsp1.1] at hmem0
                exact absurd ((containsChar_eq_true_iff _ _).mpr (List.mem_of_mem_take hmem0)) hb1
          · rw [if_neg hei] at hsp
            by_cases hnx : ((('[' :: t) ++ ':' :: pl).drop (e + 1)).head? = some ':'
            · rw [if_pos hnx] at hsp; exact Except.noConfusion hsp
            · rw [if_neg hnx] at hsp; exact Except.noConfusion hsp
    · rw [if_neg hbr] at hsp
      split at hsp
      next => exact Except.noConfusion hsp
      next hcc =>
        split at hsp
        next => exact Except.noConfusion hsp
        next =>
          split at hsp
          next => exact Except.noConfusion hsp
          next =>
            have hsp1 := (Prod.mk.injEq _ _ _ _).mp ((Except.ok.injEq _ _).mp hsp)
            intro hmem
            have hmem0 := hmem
            rw [← hsp1.1] at hmem0
            exact hcc ((containsChar_eq_true_iff _ _).mpr hmem0)

/-- C10: the port portion of a peer-address string is discarded without
validation: whenever the host/port split of `h ++ ":" ++ p` succeeds with
host `h` and (non-empty, arbitrary) port `p`, parsing `h ++ ":" ++ p`
yields the same result as parsing `h` alone, so `Match` decides identically
on both — the decision never depends on the port text. -/
theorem C10_port_text_never_matters (h p : String) (hp : p ≠ "")
    (hsplit : splitHostPort (h ++ ":" ++ p) = .ok (h, p)) :
    parseIPZoneFromString (h ++ ":" ++ p) = parseIPZoneFromString h
    ∧ ∀ m : MatchDynamicRemoteIP, m.Match (h ++ ":" ++ p) = m.Match h := by
  have hdata : (h ++ ":" ++ p).toList = h.toList ++ ':' :: p.toList := by
    show (h ++ ":" ++ p).data = h.data ++ ':' :: p.data
    rw [String.data_append, String.data_append]
    simp [List.append_assoc]
  have hcore : splitHostPortCore (h.toList ++ ':' :: p.toList) = .ok (h.toList, p.toList) := by
    unfold splitHostPort at hsplit
    rw [hdata] at hsplit
    cases hc : splitHostPortCore (h.toList ++ ':' :: p.toList) with
    | error e => rw [hc] at hsplit; exact Except.noConfusion hsplit
    | ok pair =>
        obtain ⟨host, port⟩ := pair
        rw [hc] at hsplit
        dsimp only at hsplit
        have h1 := (Prod.mk.injEq _ _ _ _).mp ((Except.ok.injEq _ _).mp hsplit)
        obtain ⟨hmk1, hmk2⟩ := h1
        subst hmk1
        subst hmk2
        rfl
  have hnc : ':' ∉ h.toList := splitHostPortCore_append_host h.toList p.toList hcore
  have hErr : splitHostPortCore h.toList = .error "missing port in address" :=
    splitHostPortCore_no_colon _ hnc
  have hparse : parseIPZoneFromString (h ++ ":" ++ p) = parseIPZoneFromString h := by
    unfold parseIPZoneFromString
    simp only [hdata, hcore, hErr]
  refine ⟨hparse, fun m => ?_⟩
  unfold MatchDynamicRemoteIP.Match
  rw [hparse]

theorem C10_witness :
    ("garbage" : String) ≠ ""
    ∧ splitHostPort ("1.2.3.4" ++ ":" ++ "garbage") = .ok ("1.2.3.4", "garbage")
    ∧ parseIPZoneFromString ("1.2.3.4" ++ ":" ++ "garbage") = parseIPZoneFromString "1.2.3.4" :=
  ⟨by decide, rfl,
    (C10_port_text_never_matters "1.2.3.4" "garbage" (by decide) rfl).1⟩

end CaddyCF

